import Mathlib

/-!
Verification development for the Telebrief digest pipeline.

Strings are embedded as `List Char`; Python dictionaries as association
lists (Python dicts preserve insertion order and have unique keys); the
delivery transport, the source transport and the summarization service are
embedded as oracles (functions from call index, or channel name, to an
outcome), with the trace of transport calls made explicit.
-/

namespace Telebrief

/-- Characters removed by Python `str.strip()` (ASCII whitespace; the
Unicode whitespace also stripped by Python does not occur in any string
this development evaluates). -/
def isPySpace (c : Char) : Bool :=
  c = ' ' || c = '\t' || c = '\n' || c = '\r' || c = Char.ofNat 11 || c = Char.ofNat 12

/-- Python `str.strip()`: leading whitespace removed, then trailing
whitespace removed (trimming the two ends commutes). -/
def pyStrip (l : List Char) : List Char :=
  ((l.dropWhile isPySpace).reverse.dropWhile isPySpace).reverse

/-- Python `text.split("\n")`: the pieces of `l` between newline
characters; always at least one (possibly empty) piece. -/
def pySplitNl : List Char → List (List Char)
  | [] => [[]]
  | c :: cs =>
    if c = '\n' then [] :: pySplitNl cs
    else
      match pySplitNl cs with
      | [] => [[c]]
      | l :: ls => (c :: l) :: ls

/-- Python `"\n".join` on the pieces: the left inverse of `pySplitNl`. -/
def joinNl : List (List Char) → List Char
  | [] => []
  | [l] => l
  | l :: ls => l ++ '\n' :: joinNl ls

/-- The body of the `while len(line) > max_length` loop of `split_message`
(src/utils.py), with explicit fuel: peel `max`-sized chunks off the front
of the line and return the chunks with the final remainder. -/
def chunkLineAux (max : Nat) : Nat → List Char → List (List Char) × List Char
  | 0, line => ([], line)
  | fuel + 1, line =>
    if max < line.length then
      let r := chunkLineAux max fuel (line.drop max)
      (line.take max :: r.1, r.2)
    else
      ([], line)

/-- The `while len(line) > max_length` loop of `split_message`: with
`0 < max` every iteration shortens the line by `max` characters, so
`line.length` is always enough fuel and this equals the Python loop.  (The
Python loop does not terminate when `max_length = 0` and the line is
nonempty; every claim about `split_message` restricts to positive `max`.) -/
def chunkLine (max : Nat) (line : List Char) : List (List Char) × List Char :=
  chunkLineAux max line.length line

/-- The accumulator of the `for line in text.split("\n")` loop of
`split_message`: the finished `parts` and the pending `current_part`. -/
structure SplitState where
  parts : List (List Char)
  current : List Char
deriving DecidableEq, Repr

/-- One iteration of the line loop of `split_message` (src/utils.py,
lines 85-106), for one `line`. -/
def processLine (max : Nat) (st : SplitState) (line : List Char) : SplitState :=
  if max < line.length then
    let parts1 := if st.current.isEmpty then st.parts else st.parts ++ [pyStrip st.current]
    let r := chunkLine max line
    { parts := parts1 ++ r.1
      current := if r.2.isEmpty then [] else r.2 ++ ['\n'] }
  else if st.current.length + line.length + 1 ≤ max then
    { st with current := st.current ++ line ++ ['\n'] }
  else
    { parts := if st.current.isEmpty then st.parts else st.parts ++ [pyStrip st.current]
      current := line ++ ['\n'] }

/-- Embedding of `split_message(text, max_length)` from src/utils.py. -/
def splitMessage (text : List Char) (max : Nat) : List (List Char) :=
  if text.length ≤ max then [text]
  else
    let st := (pySplitNl text).foldl (processLine max) ⟨[], []⟩
    if st.current.isEmpty then st.parts else st.parts ++ [pyStrip st.current]

/-- The invariant the line loop of `split_message` maintains: all finished
parts fit in `max`, and the pending part is empty or ends in a newline and
has at most `max + 1` characters (so that stripping it fits in `max`). -/
def SInv (max : Nat) (st : SplitState) : Prop :=
  (∀ p ∈ st.parts, p.length ≤ max) ∧
    (st.current = [] ∨
      (st.current.length ≤ max + 1 ∧ st.current.getLast? = some '\n'))

/-- The subsequence of non-whitespace characters of a string. -/
def nonSpace (l : List Char) : List Char :=
  l.filter (fun c => !isPySpace c)

/-! ## Python string helpers shared by the sender and the pipeline -/

/-- Python substring containment `pat in hay`. -/
def pyContains : List Char → List Char → Bool
  | [], pat => pat.isEmpty
  | c :: t, pat => pat.isPrefixOf (c :: t) || pyContains t pat

/-- Python `str.lower()` on one character, restricted to ASCII letters and
the Russian Cyrillic block (the only cased characters in the strings this
development evaluates; Python lowers all Unicode). -/
def pyToLower (c : Char) : Char :=
  if 'A' ≤ c ∧ c ≤ 'Z' then Char.ofNat (c.toNat + 32)
  else if 0x410 ≤ c.toNat ∧ c.toNat ≤ 0x42F then Char.ofNat (c.toNat + 32)
  else if c.toNat = 0x401 then Char.ofNat 0x451
  else c

/-- Python `str.lower()`. -/
def pyLower (l : List Char) : List Char :=
  l.map pyToLower

/-! ## Delivery transport model (src/sender.py)

The `telegram.Bot` client is embedded as an oracle `Transport` giving the
outcome of the n-th transport call, together with an explicit trace
`TState` of the calls made so far.  Sender operations take the ambient
trace and return the updated one, so "zero transport calls" is the
statement that the trace comes back unchanged. -/

/-- Outcome of one delivery-transport call: the platform-assigned message
id of the affected message, or a `TelegramError` with a free-text
message. -/
inductive TOutcome
  | ok (msgId : Int)
  | err (msg : List Char)
deriving DecidableEq, Repr

/-- One delivery-transport call: `bot.send_message` (with the markup flag:
`parse_mode=MARKDOWN` vs `parse_mode=None`) or `bot.delete_message`. -/
inductive TCall
  | send (chat : Int) (text : List Char) (markdown : Bool)
  | del (chat : Int) (msgId : Int)
deriving DecidableEq, Repr

/-- The transport trace: number of calls made so far, and which. -/
structure TState where
  n : Nat
  calls : List TCall
deriving DecidableEq, Repr

/-- Oracle from the index of a transport call to its outcome. -/
def Transport : Type :=
  Nat → TOutcome

/-- Model of `bot.send_message`: consult the oracle and record the call. -/
def tSend (tr : Transport) (st : TState) (chat : Int) (text : List Char)
    (markdown : Bool) : TOutcome × TState :=
  (tr st.n, ⟨st.n + 1, st.calls ++ [TCall.send chat text markdown]⟩)

/-- Model of `bot.delete_message`: consult the oracle and record the call. -/
def tDelete (tr : Transport) (st : TState) (chat : Int) (msgId : Int) :
    TOutcome × TState :=
  (tr st.n, ⟨st.n + 1, st.calls ++ [TCall.del chat msgId]⟩)

/-- The literal pattern `_send_message_part` matches against the error
text: `Can`, an apostrophe (written by code point to keep the source
plain), then `t parse entities`. -/
def parseErrPat : List Char :=
  "Can".data ++ [Char.ofNat 39] ++ "t parse entities".data

/-- The pattern `cleanup_old_digests` matches (on the lowercased error
text) to treat a deletion as already done. -/
def notFoundPat : List Char :=
  "message to delete not found".data

/-! ## Cleanup store model (src/utils.py, lines 114-207)

The JSON document `data/digest_messages.json` maps `str(user_id)` to
`{"message_ids": [...], "timestamp": ...}`.  `str` is injective on ints so
keys are kept as `Int`; the timestamp is never read back and is omitted.
A store is missing (no file), corrupt (present but unparseable), or a
key-ordered association list as a Python dict. -/

inductive Store
  | missing
  | corrupt
  | data (entries : List (Int × List Int))
deriving DecidableEq, Repr

/-- Python dict update `data[user_key] = ...`: replace in place, or append
a new key at the end (dicts preserve insertion order). -/
def updateEntry (k : Int) (v : List Int) :
    List (Int × List Int) → List (Int × List Int)
  | [] => [(k, v)]
  | (k1, v1) :: rest =>
    if k1 = k then (k, v) :: rest else (k1, v1) :: updateEntry k v rest

/-- Python dict deletion `del data[user_key]` (if present). -/
def removeEntry (k : Int) :
    List (Int × List Int) → List (Int × List Int)
  | [] => []
  | (k1, v1) :: rest =>
    if k1 = k then rest else (k1, v1) :: removeEntry k rest

/-- Python dict lookup. -/
def lookupEntry (k : Int) : List (Int × List Int) → Option (List Int)
  | [] => none
  | (k1, v1) :: rest => if k1 = k then some v1 else lookupEntry k rest

/-- Model of `save_digest_message_ids`: load the existing document (a missing or
unparseable file is treated as the empty dict), overwrite the record of this user,
then write the document back. -/
def saveDigestMessageIds (messageIds : List Int) (userId : Int)
    (store : Store) : Store :=
  match store with
  | Store.missing => Store.data (updateEntry userId messageIds [])
  | Store.corrupt => Store.data (updateEntry userId messageIds [])
  | Store.data d => Store.data (updateEntry userId messageIds d)

/-- Model of `get_digest_message_ids`: the stored list, or `[]` when the file is
missing, unparseable, or has no record for this user; never raises (it is
a total function). -/
def getDigestMessageIds (userId : Int) (store : Store) : List Int :=
  match store with
  | Store.missing => []
  | Store.corrupt => []
  | Store.data d =>
    match lookupEntry userId d with
    | some ids => ids
    | none => []

/-- Model of `clear_digest_message_ids`: delete the record of this user and write the
document back; a missing or unparseable file is left untouched. -/
def clearDigestMessageIds (userId : Int) (store : Store) : Store :=
  match store with
  | Store.missing => store
  | Store.corrupt => store
  | Store.data d => Store.data (removeEntry userId d)

/-- A reachable store: Python dict keys are unique. -/
def StoreWF : Store → Prop
  | Store.data d => (d.map Prod.fst).Nodup
  | _ => True

instance : DecidablePred StoreWF := by
  intro s
  cases s with
  | missing => exact isTrue trivial
  | corrupt => exact isTrue trivial
  | data d => exact inferInstanceAs (Decidable ((d.map Prod.fst).Nodup))

/-! ## Sender operations (src/sender.py) -/

/-- Model of `DigestSender._send_message_part`: try Markdown; on a transport error
whose text contains the markup-parse pattern, retry once in plain text
(errors of the retry propagate); any other error propagates. -/
def sendMessagePart (tr : Transport) (st : TState) (userId : Int)
    (text : List Char) : Except (List Char) Unit × TState :=
  match tSend tr st userId text true with
  | (TOutcome.ok _, st1) => (Except.ok (), st1)
  | (TOutcome.err e, st1) =>
    if pyContains e parseErrPat then
      match tSend tr st1 userId text false with
      | (TOutcome.ok _, st2) => (Except.ok (), st2)
      | (TOutcome.err e2, st2) => (Except.error e2, st2)
    else
      (Except.error e, st1)

/-- The `for part in parts` loops of `send_digest` and
`send_channel_messages`: send each part in order, stopping at the first
error (the raised `TelegramError` aborts the remaining parts). -/
def sendParts (tr : Transport) (userId : Int) :
    TState → List (List Char) → Except (List Char) Unit × TState
  | st, [] => (Except.ok (), st)
  | st, p :: ps =>
    match sendMessagePart tr st userId p with
    | (Except.ok _, st1) => sendParts tr userId st1 ps
    | (Except.error e, st1) => (Except.error e, st1)

/-- Model of `DigestSender.send_digest`: refuse an unauthorized recipient without
contacting the transport, else split the digest at 4000 characters and
send the parts, reporting `False` on any transport error. -/
def sendDigest (tr : Transport) (targetUserId : Int) (st : TState)
    (digest : List Char) (userId : Option Int) : Bool × TState :=
  let uid := userId.getD targetUserId
  if uid ≠ targetUserId then (false, st)
  else
    match sendParts tr uid st (splitMessage digest 4000) with
    | (Except.ok _, st1) => (true, st1)
    | (Except.error _, st1) => (false, st1)

/-- The per-channel body of `send_channel_messages`: a block longer than
4096 characters is split at 4000 and sent in parts, otherwise sent as a
single message; any `TelegramError` makes the block fail. -/
def sendOneChannel (tr : Transport) (st : TState) (userId : Int)
    (text : List Char) : Except (List Char) Unit × TState :=
  if 4096 < text.length then
    sendParts tr userId st (splitMessage text 4000)
  else
    sendMessagePart tr st userId text

/-- The channel loop of `send_channel_messages`: per-channel failures are
caught and recorded, the loop always continues.  Returns
(success count, failed channel names, trace). -/
def sendChannelLoop (tr : Transport) (userId : Int) :
    TState → List (List Char × List Char) → Nat × List (List Char) × TState
  | st, [] => (0, [], st)
  | st, (name, text) :: rest =>
    match sendOneChannel tr st userId text with
    | (Except.ok _, st1) =>
      let r := sendChannelLoop tr userId st1 rest
      (r.1 + 1, r.2.1, r.2.2)
    | (Except.error _, st1) =>
      let r := sendChannelLoop tr userId st1 rest
      (r.1, name :: r.2.1, r.2.2)

/-- Model of `DigestSender.send_channel_messages`: `True` iff every block was
delivered. -/
def sendChannelMessages (tr : Transport) (targetUserId : Int) (st : TState)
    (channelMessages : List (List Char × List Char)) (userId : Option Int) :
    Bool × TState :=
  let uid := userId.getD targetUserId
  if uid ≠ targetUserId then (false, st)
  else
    let r := sendChannelLoop tr uid st channelMessages
    (r.1 == channelMessages.length, r.2.2)

/-- Model of `DigestSender.send_message`: a single Markdown send with no fallback;
`False` on any transport error. -/
def sendMessage (tr : Transport) (targetUserId : Int) (st : TState)
    (text : List Char) (userId : Option Int) : Bool × TState :=
  let uid := userId.getD targetUserId
  if uid ≠ targetUserId then (false, st)
  else
    match tSend tr st uid text true with
    | (TOutcome.ok _, st1) => (true, st1)
    | (TOutcome.err _, st1) => (false, st1)

/-- Model of `DigestSender._send_message_with_tracking`: like `_send_message_part`
but returning the platform message id. -/
def sendMessageWithTracking (tr : Transport) (st : TState) (userId : Int)
    (text : List Char) : Except (List Char) Int × TState :=
  match tSend tr st userId text true with
  | (TOutcome.ok mid, st1) => (Except.ok mid, st1)
  | (TOutcome.err e, st1) =>
    if pyContains e parseErrPat then
      match tSend tr st1 userId text false with
      | (TOutcome.ok mid, st2) => (Except.ok mid, st2)
      | (TOutcome.err e2, st2) => (Except.error e2, st2)
    else
      (Except.error e, st1)

/-- Model of `DigestSender._send_channel_messages_loop`: returns (sent message ids,
success count, failed channel names, trace).  A message id is recorded
only if truthy (`if message_id:`), i.e. nonzero. -/
def sendChannelLoopTracking (tr : Transport) (userId : Int) :
    TState → List (List Char × List Char) →
      List Int × Nat × List (List Char) × TState
  | st, [] => ([], 0, [], st)
  | st, (name, text) :: rest =>
    match sendMessageWithTracking tr st userId text with
    | (Except.ok mid, st1) =>
      let r := sendChannelLoopTracking tr userId st1 rest
      ((if mid ≠ 0 then mid :: r.1 else r.1), r.2.1 + 1, r.2.2.1, r.2.2.2)
    | (Except.error _, st1) =>
      let r := sendChannelLoopTracking tr userId st1 rest
      (r.1, r.2.1, name :: r.2.2.1, r.2.2.2)

/-- Model of `DigestSender._send_summary_message`: one Markdown send; `none` on any
transport error. -/
def sendSummaryMessage (tr : Transport) (st : TState) (userId : Int)
    (text : List Char) : Option Int × TState :=
  match tSend tr st userId text true with
  | (TOutcome.ok mid, st1) => (some mid, st1)
  | (TOutcome.err _, st1) => (none, st1)

/-- Model of `DigestSender._log_and_return_result`: `True` when all blocks were
sent, otherwise `success_count > 0`. -/
def logAndReturnResult (successCount totalCount : Nat) : Bool :=
  if successCount = totalCount then true else successCount > 0

/-- Model of `DigestSender.send_channel_messages_with_tracking`: send all channel
blocks, then the optional summary message if at least one block succeeded,
save the collected message ids when nonempty, and report via
`_log_and_return_result`. -/
def sendChannelMessagesWithTracking (tr : Transport) (targetUserId : Int)
    (st : TState) (channelMessages : List (List Char × List Char))
    (summaryMessage : Option (List Char)) (userId : Option Int)
    (store : Store) : Bool × TState × Store :=
  let uid := userId.getD targetUserId
  if uid ≠ targetUserId then (false, st, store)
  else
    let r := sendChannelLoopTracking tr uid st channelMessages
    let successCount := r.2.1
    let afterSummary :=
      match summaryMessage with
      | some sm =>
        if ¬sm.isEmpty ∧ 0 < successCount then
          match sendSummaryMessage tr r.2.2.2 uid sm with
          | (some sid, st2) => (r.1 ++ [sid], st2)
          | (none, st2) => (r.1, st2)
        else (r.1, r.2.2.2)
      | none => (r.1, r.2.2.2)
    let store1 :=
      if ¬afterSummary.1.isEmpty then
        saveDigestMessageIds afterSummary.1 uid store
      else store
    (logAndReturnResult successCount channelMessages.length,
      afterSummary.2, store1)

/-- Whether `cleanup_old_digests` counts one deletion outcome as removed:
a successful delete, or an error whose lowercased text contains the
"message to delete not found" pattern. -/
def deleteCounted : TOutcome → Bool
  | TOutcome.ok _ => true
  | TOutcome.err e => pyContains (pyLower e) notFoundPat

/-- The deletion loop of `cleanup_old_digests`: one delete call per id, in
order; failures never abort the loop.  Returns (deleted count, failed
count, trace). -/
def cleanupLoop (tr : Transport) (userId : Int) :
    TState → List Int → Nat × Nat × TState
  | st, [] => (0, 0, st)
  | st, mid :: rest =>
    match tDelete tr st userId mid with
    | (o, st1) =>
      let r := cleanupLoop tr userId st1 rest
      if deleteCounted o then (r.1 + 1, r.2.1, r.2.2)
      else (r.1, r.2.1 + 1, r.2.2)

/-- Model of `DigestSender.cleanup_old_digests`: refuse an unauthorized recipient;
an empty stored list is success with no transport call; otherwise delete
every stored id, clear the record unconditionally, and report success when
nothing failed or at least one deletion was counted. -/
def cleanupOldDigests (tr : Transport) (targetUserId : Int) (st : TState)
    (userId : Option Int) (store : Store) : Bool × TState × Store :=
  let uid := userId.getD targetUserId
  if uid ≠ targetUserId then (false, st, store)
  else
    let ids := getDigestMessageIds uid store
    if ids.isEmpty then (true, st, store)
    else
      let r := cleanupLoop tr uid st ids
      let store1 := clearDigestMessageIds uid store
      ((if r.2.1 = 0 then true else r.1 > 0), r.2.2, store1)

/-! ## Summarizer model (src/summarizer.py)

The OpenAI completion call is an oracle keyed by channel name (one
independent call per channel).  Collected messages are opaque (`Msg`): the
claims never inspect message contents, only their counts. -/

/-- Outcome of the model call for one channel: the completion content
(`ok []` also covers a `None` content, which the code turns into `""`), or
a raised API error with its text. -/
inductive LLMResult
  | ok (content : List Char)
  | fail (msg : List Char)
deriving DecidableEq, Repr

/-- Oracle from channel name to its model-call outcome. -/
def LLM : Type :=
  List Char → LLMResult

/-- The error-marker prefix substituted by `_summarize_per_channel` when
the model call for a channel raises. -/
def errorMarkerHead : List Char :=
  "Ошибка при обработке канала: ".data

/-- One iteration of `_summarize_per_channel`: the stripped completion
content on success (`content.strip() if content else ""`), the error
marker otherwise. -/
def summarizeChannelEntry (llm : LLM) (name : List Char) : List Char :=
  match llm name with
  | LLMResult.ok content => pyStrip content
  | LLMResult.fail e => errorMarkerHead ++ e

/-- Model of `Summarizer._summarize_per_channel`: one entry per channel, keys and
order preserved. -/
def summarizePerChannel {Msg : Type} (llm : LLM)
    (messagesByChannel : List (List Char × List Msg)) :
    List (List Char × List Char) :=
  messagesByChannel.map (fun p => (p.1, summarizeChannelEntry llm p.1))

/-- Model of `Summarizer.summarize_all`: filter out empty channels, then summarize
each remaining one; the overview is always the empty string.  Returns
(channel summaries, overview). -/
def summarizeAll {Msg : Type} (llm : LLM)
    (messagesByChannel : List (List Char × List Msg)) :
    List (List Char × List Char) × List Char :=
  if (messagesByChannel.filter (fun p => ¬p.2.isEmpty)).isEmpty then ([], [])
  else
    (summarizePerChannel llm
      (messagesByChannel.filter (fun p => ¬p.2.isEmpty)), [])

/-! ## Formatter model (src/formatter.py)

The two clock-derived strings (the localized date of `_create_header` and
the time range of `_create_statistics`) are passed in as parameters: the
claims never constrain them. -/

/-- The failure-marker substring both `create_digest` (src/formatter.py
line 65) and `generate_and_send_channel_digests` (src/core.py line 178)
match against the lowercased summary. -/
def digestMarker : List Char :=
  "ошибка".data

/-- The skip condition `not summary or "ошибка" in summary.lower()`. -/
def badSummary (summary : List Char) : Bool :=
  summary.isEmpty || pyContains (pyLower summary) digestMarker

/-- Python `any(word in name_lower for word in [...])`. -/
def anyKeyword (nameLower : List Char) (words : List (List Char)) : Bool :=
  words.any (fun w => pyContains nameLower w)

/-- Model of `DigestFormatter._pick_emoji`: keyword-match the lowercased channel
name against fixed keyword sets, with a plain bullet when emojis are
disabled and a default icon when nothing matches. -/
def pickEmoji (useEmojis : Bool) (channelName : List Char) : List Char :=
  if ¬useEmojis then "•".data
  else
    let n := pyLower channelName
    if anyKeyword n ["tech".data, "dev".data, "code".data,
        "программ".data, "разработ".data] then "💻".data
    else if anyKeyword n ["crypto".data, "bitcoin".data,
        "финанс".data, "крипто".data] then "💰".data
    else if anyKeyword n ["news".data, "новост".data] then "📰".data
    else if anyKeyword n ["business".data, "бизнес".data,
        "startup".data] then "💼".data
    else if anyKeyword n ["science".data, "research".data,
        "наук".data] then "🔬".data
    else if anyKeyword n ["ai".data, "ml".data, "artificial".data,
        "ии".data, "искусственн".data] then "🤖".data
    else if anyKeyword n ["design".data, "дизайн".data,
        "ui".data, "ux".data] then "🎨".data
    else if anyKeyword n ["marketing".data, "маркетинг".data,
        "smm".data] then "📈".data
    else "📺".data

/-- Model of `DigestFormatter._create_header`, with `dateStr` standing for the
clock-derived, month-translated date string. -/
def createHeader (useEmojis : Bool) (dateStr : List Char) : List Char :=
  "# ".data ++ (if useEmojis then "📊".data else []) ++
    " Ежедневный дайджест - ".data ++ dateStr ++ "\n".data

/-- Model of `DigestFormatter._create_channel_section` (its `messages` argument is
never read by the body and is omitted): `"\n".join` of the title line, the
summary and a blank line. -/
def createChannelSection (useEmojis : Bool) (channelName summary : List Char) :
    List Char :=
  joinNl ["## ".data ++ pickEmoji useEmojis channelName ++ " ".data ++
      channelName ++ "\n".data,
    summary,
    "\n".data]

/-- Model of `DigestFormatter._create_statistics`, with `statsTimeStr` standing for
the clock-derived time-range text of the `hours == 24` branch. -/
def createStatistics {Msg : Type} (messagesByChannel : List (List Char × List Msg))
    (hours : Nat) (statsTimeStr : List Char) : List Char :=
  let total := (messagesByChannel.map (fun p => p.2.length)).sum
  let active := (messagesByChannel.filter (fun p => ¬p.2.isEmpty)).length
  joinNl ["---\n".data,
    "📈 **Статистика**: ".data ++ (Nat.repr active).data ++
      " каналов, ".data ++ (Nat.repr total).data ++
      " сообщений обработано".data,
    if hours = 24 then "⏱️ Дайджест за: ".data ++ statsTimeStr
    else "⏱️ Период: последние ".data ++ (Nat.repr hours).data ++
      " часов".data]

/-- The channel filter of `create_digest`: the `continue` on an empty or
error summary keeps exactly the pairs with a good summary. -/
def digestChannelPairs (channelSummaries : List (List Char × List Char)) :
    List (List Char × List Char) :=
  channelSummaries.filter (fun p => ¬badSummary p.2)

/-- Model of `DigestFormatter.create_digest`: header, optional overview section,
one section per channel with a good summary, optional statistics footer,
joined with newlines. -/
def createDigest {Msg : Type} (useEmojis includeStats : Bool)
    (dateStr statsTimeStr : List Char) (overview : List Char)
    (channelSummaries : List (List Char × List Char))
    (messagesByChannel : List (List Char × List Msg)) (hours : Nat) :
    List Char :=
  let headerParts := [createHeader useEmojis dateStr]
  let overviewParts :=
    if ¬overview.isEmpty then
      ["## 🎯 Краткий обзор\n".data, overview, "\n---\n".data]
    else []
  let sections := (digestChannelPairs channelSummaries).map
    (fun p => createChannelSection useEmojis p.1 p.2)
  let statsParts :=
    if includeStats then [createStatistics messagesByChannel hours statsTimeStr]
    else []
  joinNl (headerParts ++ overviewParts ++ sections ++ statsParts)

/-- Python `dict.get(key, default)` on an association list. -/
def dictGet {β : Type} (k : List Char) : List (List Char × β) → Option β
  | [] => none
  | (k1, v1) :: rest => if k1 = k then some v1 else dictGet k rest

/-- Modelled from the spec: `DigestFormatter.format_channel_message` is
called by `generate_and_send_channel_digests` (src/core.py line 186) but
is defined nowhere in the repository.  Per the spec (§4.3) it renders the
delivery-ready block of one channel: a category icon, the channel name, and
the summary text; the messages (link metadata) and window do not alter
which channels are rendered. -/
def formatChannelMessage {Msg : Type} (useEmojis : Bool)
    (channelName summary : List Char) (_messages : List Msg)
    (_hours : Nat) : List Char :=
  "## ".data ++ pickEmoji useEmojis channelName ++ " ".data ++
    channelName ++ "\n\n".data ++ summary

/-- Modelled from the spec: `DigestFormatter.format_summary_message` is
called by `generate_and_send_channel_digests` (src/core.py line 205) but
is defined nowhere in the repository.  Per the spec (§4.3, statistics
rendering) it reports the channel count, the message count and the time
window. -/
def formatSummaryMessage (totalChannels totalMessages hours : Nat) :
    List Char :=
  "📈 **Статистика**: ".data ++ (Nat.repr totalChannels).data ++
    " каналов, ".data ++ (Nat.repr totalMessages).data ++
    " сообщений за ".data ++ (Nat.repr hours).data ++ " часов".data

/-! ## Core pipeline (src/core.py)

The output of the Collector is the `messagesByChannel` parameter (the claims
quantify over it); the model call and the delivery transport are the
`llm` and `tr` oracles. -/

/-- Model of `generate_digest` (src/core.py): summarize, then format. -/
def generateDigest {Msg : Type} (llm : LLM) (useEmojis includeStats : Bool)
    (dateStr statsTimeStr : List Char) (hours : Nat)
    (messagesByChannel : List (List Char × List Msg)) : List Char :=
  let s := summarizeAll llm messagesByChannel
  createDigest useEmojis includeStats dateStr statsTimeStr s.2 s.1
    messagesByChannel hours

/-- Model of `generate_and_send_digest` (src/core.py): generate the digest — with
no zero-message check — and hand it to `send_digest`. -/
def generateAndSendDigest {Msg : Type} (llm : LLM) (tr : Transport)
    (targetUserId : Int) (useEmojis includeStats : Bool)
    (dateStr statsTimeStr : List Char) (hours : Nat) (userId : Option Int)
    (messagesByChannel : List (List Char × List Msg)) : Bool × TState :=
  sendDigest tr targetUserId ⟨0, []⟩
    (generateDigest llm useEmojis includeStats dateStr statsTimeStr hours
      messagesByChannel)
    userId

/-- The channel-message loop of `generate_and_send_channel_digests`
(src/core.py lines 176-191): skip empty or error summaries, format the
rest. -/
def coreChannelMessages {Msg : Type} (useEmojis : Bool)
    (channelSummaries : List (List Char × List Char))
    (messagesByChannel : List (List Char × List Msg)) (hours : Nat) :
    List (List Char × List Char) :=
  (channelSummaries.filter (fun p => ¬badSummary p.2)).map
    (fun p => (p.1,
      formatChannelMessage useEmojis p.1 p.2
        ((dictGet p.1 messagesByChannel).getD []) hours))

/-- Model of `generate_and_send_channel_digests` (src/core.py): a run with zero
total collected messages, or with no valid channel block, is a no-op
returning `False`; otherwise send the channel blocks and, on success, the
summary message (whose outcome does not change the returned value). -/
def generateAndSendChannelDigests {Msg : Type} (llm : LLM) (tr : Transport)
    (targetUserId : Int) (useEmojis : Bool) (hours : Nat)
    (userId : Option Int)
    (messagesByChannel : List (List Char × List Msg)) : Bool × TState :=
  let total := (messagesByChannel.map (fun p => p.2.length)).sum
  if total = 0 then (false, ⟨0, []⟩)
  else
    let s := summarizeAll llm messagesByChannel
    let channelMessages := coreChannelMessages useEmojis s.1
      messagesByChannel hours
    if channelMessages.isEmpty then (false, ⟨0, []⟩)
    else
      let r := sendChannelMessages tr targetUserId ⟨0, []⟩
        channelMessages userId
      if r.1 then
        let sm := formatSummaryMessage channelMessages.length total hours
        let r2 := sendMessage tr targetUserId r.2 sm userId
        (r.1, r2.2)
      else (r.1, r.2)

/-! ## Collector model (src/collector.py)

`_fetch_channel_messages` is an oracle from (channel index, attempt
number) to an outcome; `fetch_messages` records the sleeps it performs. -/

/-- Outcome of one `_fetch_channel_messages` attempt: the message list, or
one of the exceptions `fetch_messages` handles (`ChannelPrivateError`,
`FloodWaitError` with its wait, an entity-resolution `ValueError`, or any
other exception). -/
inductive FetchResult (Msg : Type)
  | ok (msgs : List Msg)
  | channelPrivate
  | floodWait (seconds : Nat)
  | valueError (msg : List Char)
  | otherError (msg : List Char)
deriving DecidableEq, Repr

/-- The per-channel body of `fetch_messages` (src/collector.py lines
83-118): a first fetch attempt; on `FloodWaitError` sleep the announced
seconds and retry exactly once, any failure of the retry giving the empty
list; the other handled exceptions give the empty list at once.  Returns
(messages recorded for the channel, sleeps performed, fetch attempts
made). -/
def processChannelFetch {Msg : Type} (fetch : Nat → FetchResult Msg) :
    List Msg × List Nat × Nat :=
  match fetch 0 with
  | FetchResult.ok msgs => (msgs, [], 1)
  | FetchResult.channelPrivate => ([], [], 1)
  | FetchResult.floodWait n =>
    match fetch 1 with
    | FetchResult.ok msgs => (msgs, [n], 2)
    | _ => ([], [n], 2)
  | FetchResult.valueError _ => ([], [], 1)
  | FetchResult.otherError _ => ([], [], 1)

/-- The channel loop of `fetch_messages`, starting at channel index `i`:
every configured channel gets an entry, in configuration order.  Returns
(channel name → messages, sleeps performed in order). -/
def fetchMessagesAux {Msg : Type} (oracle : Nat → Nat → FetchResult Msg) :
    Nat → List (List Char) → List (List Char × List Msg) × List Nat
  | _, [] => ([], [])
  | i, name :: rest =>
    let pc := processChannelFetch (oracle i)
    let r := fetchMessagesAux oracle (i + 1) rest
    ((name, pc.1) :: r.1, pc.2.1 ++ r.2)

/-- Model of `MessageCollector.fetch_messages` over the configured channel names. -/
def fetchMessages {Msg : Type} (oracle : Nat → Nat → FetchResult Msg)
    (channels : List (List Char)) :
    List (List Char × List Msg) × List Nat :=
  fetchMessagesAux oracle 0 channels

/-! ### Lemmas about `pyStrip`, `chunkLine` and the line loop -/

theorem dropWhile_length_le (p : Char → Bool) (l : List Char) :
    (l.dropWhile p).length ≤ l.length :=
  (List.dropWhile_suffix p).length_le

theorem pyStrip_length_le (l : List Char) : (pyStrip l).length ≤ l.length := by
  unfold pyStrip
  calc ((l.dropWhile isPySpace).reverse.dropWhile isPySpace).reverse.length
      = ((l.dropWhile isPySpace).reverse.dropWhile isPySpace).length :=
        List.length_reverse _
    _ ≤ (l.dropWhile isPySpace).reverse.length := dropWhile_length_le _ _
    _ = (l.dropWhile isPySpace).length := List.length_reverse _
    _ ≤ l.length := dropWhile_length_le _ _

theorem pyStrip_length_lt (l : List Char) (h : l.getLast? = some '\n') :
    (pyStrip l).length + 1 ≤ l.length := by
  have hl : l ≠ [] := by intro e; rw [e] at h; simp at h
  by_cases ha : l.dropWhile isPySpace = []
  · have he : pyStrip l = [] := by simp [pyStrip, ha]
    rw [he]
    simpa using List.length_pos.mpr hl
  · obtain ⟨t, ht⟩ := List.dropWhile_suffix (l := l) isPySpace
    have hlast : (l.dropWhile isPySpace).getLast? = some '\n' := by
      rw [← List.getLast?_append_of_ne_nil t ha, ht, h]
    have hrev : (l.dropWhile isPySpace).reverse.head? = some '\n' := by
      rw [List.head?_reverse, hlast]
    obtain ⟨ys, hys⟩ : ∃ ys, (l.dropWhile isPySpace).reverse = '\n' :: ys := by
      cases hc : (l.dropWhile isPySpace).reverse with
      | nil => rw [hc] at hrev; simp at hrev
      | cons y ys =>
        rw [hc] at hrev
        simp only [List.head?_cons, Option.some.injEq] at hrev
        exact ⟨ys, by rw [hrev]⟩
    have h1 : pyStrip l = (ys.dropWhile isPySpace).reverse := by
      unfold pyStrip
      rw [hys]
      simp [List.dropWhile, isPySpace]
    have h2 : (pyStrip l).length ≤ ys.length := by
      rw [h1, List.length_reverse]
      exact dropWhile_length_le _ _
    have h3 : ys.length + 1 = (l.dropWhile isPySpace).length := by
      have hc := congrArg List.length hys
      rw [List.length_reverse] at hc
      simp at hc
      omega
    have h4 : (l.dropWhile isPySpace).length ≤ l.length := dropWhile_length_le _ _
    omega

theorem chunkLineAux_flatten (max : Nat) (fuel : Nat) :
    ∀ line : List Char,
      (chunkLineAux max fuel line).1.flatten ++ (chunkLineAux max fuel line).2
        = line := by
  induction fuel with
  | zero => intro line; simp [chunkLineAux]
  | succ fuel ih =>
    intro line
    by_cases hguard : max < line.length
    · rw [chunkLineAux, if_pos hguard]
      simp only [List.flatten_cons, List.append_assoc, ih]
      exact List.take_append_drop max line
    · rw [chunkLineAux, if_neg hguard]
      simp

theorem chunkLine_flatten (max : Nat) (line : List Char) :
    (chunkLine max line).1.flatten ++ (chunkLine max line).2 = line :=
  chunkLineAux_flatten max line.length line

theorem chunkLineAux_le (max : Nat) (hmax : 0 < max) (fuel : Nat) :
    ∀ line : List Char, line.length ≤ fuel + max →
      (∀ p ∈ (chunkLineAux max fuel line).1, p.length ≤ max) ∧
        (chunkLineAux max fuel line).2.length ≤ max := by
  induction fuel with
  | zero =>
    intro line hlen
    exact ⟨by simp [chunkLineAux], by simpa [chunkLineAux] using hlen⟩
  | succ fuel ih =>
    intro line hlen
    by_cases hguard : max < line.length
    · rw [chunkLineAux, if_pos hguard]
      have hrec := ih (line.drop max) (by rw [List.length_drop]; omega)
      refine ⟨?_, hrec.2⟩
      intro p hp
      rcases List.mem_cons.mp hp with h | h
      · subst h
        rw [List.length_take]
        omega
      · exact hrec.1 p h
    · rw [chunkLineAux, if_neg hguard]
      refine ⟨by simp, ?_⟩
      show line.length ≤ max
      omega

theorem chunkLine_le (max : Nat) (hmax : 0 < max) (line : List Char) :
    (∀ p ∈ (chunkLine max line).1, p.length ≤ max) ∧
      (chunkLine max line).2.length ≤ max :=
  chunkLineAux_le max hmax line.length line (by omega)

theorem SInv_flush {max : Nat} {st : SplitState} (h : SInv max st) :
    ∀ p ∈ (if st.current.isEmpty then st.parts
           else st.parts ++ [pyStrip st.current]), p.length ≤ max := by
  by_cases hc : st.current.isEmpty
  · simpa [hc] using h.1
  · simp only [hc, if_false]
    intro p hp
    rcases List.mem_append.mp hp with hmem | hmem
    · exact h.1 p hmem
    · have hp' : p = pyStrip st.current := by simpa using hmem
      subst hp'
      rcases h.2 with hnil | ⟨hlen, hlast⟩
      · rw [hnil] at hc; simp at hc
      · have := pyStrip_length_lt st.current hlast
        omega

theorem processLine_inv (max : Nat) (hmax : 0 < max) (st : SplitState)
    (line : List Char) (h : SInv max st) : SInv max (processLine max st line) := by
  unfold processLine
  by_cases h1 : max < line.length
  · simp only [h1, if_pos]
    refine ⟨?_, ?_⟩
    · intro p hp
      rcases List.mem_append.mp hp with hmem | hmem
      · exact SInv_flush h p hmem
      · exact (chunkLine_le max hmax line).1 p hmem
    · by_cases h2 : (chunkLine max line).2.isEmpty
      · left; simp [h2]
      · right
        rw [if_neg h2]
        constructor
        · have hle := (chunkLine_le max hmax line).2
          simp only [List.length_append, List.length_cons, List.length_nil]
          omega
        · rw [List.getLast?_append_of_ne_nil _ (by simp)]
          simp
  · simp only [h1, if_false]
    by_cases h2 : st.current.length + line.length + 1 ≤ max
    · simp only [h2, if_pos]
      refine ⟨h.1, Or.inr ⟨?_, ?_⟩⟩
      · simp only [List.length_append, List.length_singleton]
        omega
      · rw [List.append_assoc, List.getLast?_append_of_ne_nil]
        · simp
        · simp
    · simp only [h2, if_false]
      refine ⟨SInv_flush h, Or.inr ⟨?_, ?_⟩⟩
      · simp only [List.length_append, List.length_singleton]
        omega
      · rw [List.getLast?_append_of_ne_nil]
        · simp
        · simp

theorem foldl_inv (max : Nat) (hmax : 0 < max) (lines : List (List Char)) :
    ∀ st : SplitState, SInv max st →
      SInv max (lines.foldl (processLine max) st) := by
  induction lines with
  | nil => intro st h; exact h
  | cons l ls ih =>
    intro st h
    exact ih _ (processLine_inv max hmax st l h)

/-! ### Content preservation up to whitespace -/

theorem nonSpace_append (a b : List Char) :
    nonSpace (a ++ b) = nonSpace a ++ nonSpace b :=
  List.filter_append a b

theorem nonSpace_dropWhile (l : List Char) :
    nonSpace (l.dropWhile isPySpace) = nonSpace l := by
  induction l with
  | nil => rfl
  | cons c cs ih =>
    by_cases hc : isPySpace c
    · simp [List.dropWhile, nonSpace, hc, List.filter] at *
      exact ih
    · simp [List.dropWhile, hc]

theorem nonSpace_reverse (l : List Char) :
    nonSpace l.reverse = (nonSpace l).reverse :=
  List.filter_reverse _ l

theorem nonSpace_pyStrip (l : List Char) : nonSpace (pyStrip l) = nonSpace l := by
  unfold pyStrip
  rw [nonSpace_reverse, nonSpace_dropWhile, nonSpace_reverse, nonSpace_dropWhile,
    List.reverse_reverse]

theorem pySplitNl_ne_nil (l : List Char) : pySplitNl l ≠ [] := by
  cases l with
  | nil => simp [pySplitNl]
  | cons c cs =>
    by_cases hc : c = '\n'
    · simp [pySplitNl, hc]
    · simp only [pySplitNl, hc, if_false]
      cases pySplitNl cs <;> simp

theorem joinNl_pySplitNl (l : List Char) : joinNl (pySplitNl l) = l := by
  induction l with
  | nil => rfl
  | cons c cs ih =>
    by_cases hc : c = '\n'
    · subst hc
      simp only [pySplitNl, if_pos rfl]
      cases hs : pySplitNl cs with
      | nil => exact absurd hs (pySplitNl_ne_nil cs)
      | cons p ps =>
        rw [hs] at ih
        simp [joinNl, ih]
    · simp only [pySplitNl, hc, if_false]
      cases hs : pySplitNl cs with
      | nil => exact absurd hs (pySplitNl_ne_nil cs)
      | cons p ps =>
        rw [hs] at ih
        cases ps with
        | nil => simp only [joinNl] at ih ⊢; rw [ih]
        | cons q qs =>
          simp only [joinNl] at ih ⊢
          rw [List.cons_append, ih]

theorem nonSpace_cons_nl (l : List Char) : nonSpace ('\n' :: l) = nonSpace l := by
  simp [nonSpace, List.filter, isPySpace]

theorem nonSpace_joinNl (ls : List (List Char)) :
    nonSpace (joinNl ls) = (ls.map nonSpace).flatten := by
  induction ls with
  | nil => rfl
  | cons p ps ih =>
    cases ps with
    | nil => simp [joinNl, nonSpace]
    | cons q qs =>
      simp only [joinNl, List.map_cons, List.flatten_cons] at ih ⊢
      rw [nonSpace_append, nonSpace_cons_nl, ih]

/-- What one line-loop iteration adds to the accumulated non-whitespace
content: exactly the non-whitespace characters of that line, in order. -/
theorem processLine_content (max : Nat) (st : SplitState) (line : List Char) :
    nonSpace ((processLine max st line).parts.flatten ++
        (processLine max st line).current)
      = nonSpace (st.parts.flatten ++ st.current) ++ nonSpace line := by
  have hflush : nonSpace ((if st.current.isEmpty then st.parts
      else st.parts ++ [pyStrip st.current]).flatten)
      = nonSpace (st.parts.flatten ++ st.current) := by
    by_cases hc : st.current.isEmpty
    · have : st.current = [] := by simpa [List.isEmpty_iff] using hc
      simp [hc, this]
    · rw [if_neg hc]
      simp only [List.flatten_append, List.flatten_cons, List.flatten_nil,
        List.append_nil]
      rw [nonSpace_append, nonSpace_append, nonSpace_pyStrip]
  have hnl : nonSpace ['\n'] = [] := rfl
  unfold processLine
  by_cases h1 : max < line.length
  · simp only [h1, if_pos]
    have hck := chunkLine_flatten max line
    by_cases h2 : (chunkLine max line).2.isEmpty
    · have h2' : (chunkLine max line).2 = [] := by
        simpa [List.isEmpty_iff] using h2
      rw [if_pos h2]
      show nonSpace (((if st.current.isEmpty then st.parts
            else st.parts ++ [pyStrip st.current]) ++
          (chunkLine max line).1).flatten ++ []) = _
      rw [List.append_nil, List.flatten_append, nonSpace_append, hflush]
      congr 1
      conv_rhs => rw [← hck, h2', List.append_nil]
    · rw [if_neg h2]
      show nonSpace (((if st.current.isEmpty then st.parts
            else st.parts ++ [pyStrip st.current]) ++
          (chunkLine max line).1).flatten ++
          ((chunkLine max line).2 ++ ['\n'])) = _
      rw [List.flatten_append, List.append_assoc, nonSpace_append, hflush]
      congr 1
      rw [← List.append_assoc, nonSpace_append, hnl, List.append_nil, hck]
  · simp only [h1, if_false]
    by_cases h2 : st.current.length + line.length + 1 ≤ max
    · simp only [h2, if_pos]
      show nonSpace (st.parts.flatten ++ (st.current ++ line ++ ['\n'])) = _
      simp only [nonSpace_append, hnl, List.append_nil, List.append_assoc]
    · simp only [h2, if_false]
      show nonSpace ((if st.current.isEmpty then st.parts
            else st.parts ++ [pyStrip st.current]).flatten ++
          (line ++ ['\n'])) = _
      rw [nonSpace_append, hflush]
      simp only [nonSpace_append, hnl, List.append_nil]

theorem foldl_content (max : Nat) (lines : List (List Char)) :
    ∀ st : SplitState,
      nonSpace ((lines.foldl (processLine max) st).parts.flatten ++
          (lines.foldl (processLine max) st).current)
        = nonSpace (st.parts.flatten ++ st.current) ++
            (lines.map nonSpace).flatten := by
  induction lines with
  | nil => intro st; simp
  | cons l ls ih =>
    intro st
    simp only [List.foldl_cons, List.map_cons, List.flatten_cons]
    rw [ih, processLine_content, List.append_assoc]

/-- C1, counterexample: `split_message` strips whitespace at fragment
boundaries, so content can be lost.  For `" a\nbbbbbb"` with `max = 5` the
returned fragments are `["a", "bbbbb", "b"]`: the leading space of the
first line occurs in the input but in none of the fragments, so no
concatenation of the fragments reproduces the original content. -/
theorem c1_split_counterexample :
    splitMessage " a\nbbbbbb".data 5 = ["a".data, "bbbbb".data, "b".data] ∧
      ' ' ∈ " a\nbbbbbb".data ∧
      ∀ p ∈ splitMessage " a\nbbbbbb".data 5, ' ' ∉ p := by
  decide

/-- C1 (amended): for positive `max`, `split_message(text, max)` returns
exactly `[text]` when `len(text) ≤ max`; every returned fragment has
length ≤ `max`; and the fragments preserve the original content up to the
whitespace trimmed at fragment boundaries: the sequence of non-whitespace
characters of the concatenated fragments is exactly that of the original
text (so no line reordering or loss of non-whitespace content). -/
theorem c1_split_message_correct (text : List Char) (max : Nat) (hmax : 0 < max) :
    (text.length ≤ max → splitMessage text max = [text]) ∧
      (∀ p ∈ splitMessage text max, p.length ≤ max) ∧
      nonSpace (splitMessage text max).flatten = nonSpace text := by
  refine ⟨?_, ?_, ?_⟩
  · intro h
    simp [splitMessage, h]
  · intro p hp
    by_cases h : text.length ≤ max
    · rw [splitMessage, if_pos h] at hp
      have hp' : p = text := by simpa using hp
      subst hp'
      exact h
    · rw [splitMessage, if_neg h] at hp
      have hinv : SInv max ((pySplitNl text).foldl (processLine max) ⟨[], []⟩) :=
        foldl_inv max hmax _ _ ⟨by simp, Or.inl rfl⟩
      exact SInv_flush hinv p hp
  · by_cases h : text.length ≤ max
    · simp [splitMessage, h]
    · rw [splitMessage, if_neg h]
      have hcontent := foldl_content max (pySplitNl text) ⟨[], []⟩
      have hjoin : ((pySplitNl text).map nonSpace).flatten = nonSpace text := by
        rw [← nonSpace_joinNl, joinNl_pySplitNl]
      set st := (pySplitNl text).foldl (processLine max) (⟨[], []⟩ : SplitState)
        with hst
      by_cases hc : st.current.isEmpty
      · have hc' : st.current = [] := by simpa [List.isEmpty_iff] using hc
        rw [if_pos hc]
        rw [hc', List.append_nil] at hcontent
        simpa [hjoin] using hcontent
      · rw [if_neg hc, List.flatten_append]
        simp only [List.flatten_cons, List.flatten_nil, List.append_nil]
        rw [nonSpace_append, nonSpace_pyStrip, ← nonSpace_append, hcontent]
        simpa using hjoin

/-- Witness for `c1_split_message_correct` at a concrete input. -/
theorem c1_split_message_correct_witness :
    0 < 5 ∧
      (("Start\nAAAAAAAAAAAA\nEnd".data.length ≤ 5 →
          splitMessage "Start\nAAAAAAAAAAAA\nEnd".data 5
            = ["Start\nAAAAAAAAAAAA\nEnd".data]) ∧
        (∀ p ∈ splitMessage "Start\nAAAAAAAAAAAA\nEnd".data 5, p.length ≤ 5) ∧
        nonSpace (splitMessage "Start\nAAAAAAAAAAAA\nEnd".data 5).flatten
          = nonSpace "Start\nAAAAAAAAAAAA\nEnd".data) :=
  ⟨by decide, c1_split_message_correct "Start\nAAAAAAAAAAAA\nEnd".data 5 (by decide)⟩

/-! ### Association-list lemmas -/

theorem lookupEntry_updateEntry (k : Int) (v : List Int)
    (d : List (Int × List Int)) :
    lookupEntry k (updateEntry k v d) = some v := by
  induction d with
  | nil => simp [updateEntry, lookupEntry]
  | cons p rest ih =>
    obtain ⟨k1, v1⟩ := p
    by_cases hk : k1 = k
    · simp [updateEntry, hk, lookupEntry]
    · simp [updateEntry, hk, lookupEntry, ih]

theorem lookupEntry_eq_none (k : Int) (d : List (Int × List Int))
    (h : k ∉ d.map Prod.fst) : lookupEntry k d = none := by
  induction d with
  | nil => rfl
  | cons p rest ih =>
    obtain ⟨k1, v1⟩ := p
    simp only [List.map_cons, List.mem_cons] at h
    push_neg at h
    have hk : ¬k1 = k := fun he => h.1 he.symm
    simp [lookupEntry, hk, ih h.2]

theorem lookupEntry_removeEntry (k : Int) (d : List (Int × List Int))
    (hnd : (d.map Prod.fst).Nodup) :
    lookupEntry k (removeEntry k d) = none := by
  induction d with
  | nil => rfl
  | cons p rest ih =>
    obtain ⟨k1, v1⟩ := p
    simp only [List.map_cons, List.nodup_cons] at hnd
    by_cases hk : k1 = k
    · subst hk
      rw [removeEntry, if_pos rfl]
      exact lookupEntry_eq_none k1 rest hnd.1
    · simp [removeEntry, hk, lookupEntry, ih hnd.2]

/-- In a list with unique keys, two entries with the same key carry the
same value. -/
theorem keys_nodup_unique {α β : Type} {l : List (α × β)} {k : α} {v w : β}
    (hnd : (l.map Prod.fst).Nodup) (hv : (k, v) ∈ l) (hw : (k, w) ∈ l) :
    v = w := by
  induction l with
  | nil => cases hv
  | cons p rest ih =>
    simp only [List.map_cons, List.nodup_cons] at hnd
    rcases List.mem_cons.mp hv with hv1 | hv1 <;>
      rcases List.mem_cons.mp hw with hw1 | hw1
    · exact (Prod.ext_iff.mp (hv1.trans hw1.symm)).2
    · exfalso
      apply hnd.1
      rw [← hv1]
      exact List.mem_map.mpr ⟨(k, w), hw1, rfl⟩
    · exfalso
      apply hnd.1
      rw [← hw1]
      exact List.mem_map.mpr ⟨(k, v), hv1, rfl⟩
    · exact ih hnd.2 hv1 hw1

/-! ### C7: cleanup-store round trip -/

/-- C7: `save` followed by `get` for the same recipient returns exactly the
saved identifier list in order; `clear` followed by `get` returns the empty
list; `get` on a missing or corrupted backing store returns the empty list
(and `getDigestMessageIds` is a total function — the embedded `get` never
raises). -/
theorem c7_store_roundtrip (userId : Int) (messageIds : List Int)
    (store : Store) (hwf : StoreWF store) :
    getDigestMessageIds userId
        (saveDigestMessageIds messageIds userId store) = messageIds ∧
      getDigestMessageIds userId
        (clearDigestMessageIds userId store) = [] ∧
      getDigestMessageIds userId Store.missing = [] ∧
      getDigestMessageIds userId Store.corrupt = [] := by
  refine ⟨?_, ?_, rfl, rfl⟩
  · cases store <;>
      simp [saveDigestMessageIds, getDigestMessageIds, lookupEntry_updateEntry]
  · cases store with
    | missing => rfl
    | corrupt => rfl
    | data d =>
      simp only [clearDigestMessageIds, getDigestMessageIds]
      rw [lookupEntry_removeEntry userId d hwf]

/-- Witness for `c7_store_roundtrip` at a concrete store. -/
theorem c7_store_roundtrip_witness :
    StoreWF (Store.data [(7, [1, 2]), (8, [3])]) ∧
      (getDigestMessageIds 7
          (saveDigestMessageIds [4, 5] 7 (Store.data [(7, [1, 2]), (8, [3])]))
            = [4, 5] ∧
        getDigestMessageIds 7
          (clearDigestMessageIds 7 (Store.data [(7, [1, 2]), (8, [3])])) = [] ∧
        getDigestMessageIds 7 Store.missing = [] ∧
        getDigestMessageIds 7 Store.corrupt = []) :=
  ⟨by decide, c7_store_roundtrip 7 [4, 5] (Store.data [(7, [1, 2]), (8, [3])])
    (by decide)⟩

/-! ### C3: authorization gate -/

/-- C3: every sender operation (`send_digest`, `send_channel_messages`,
`send_channel_messages_with_tracking`, `send_message`,
`cleanup_old_digests`) called for a recipient other than the configured
`target_user_id` returns `False`, makes zero transport calls (the trace is
unchanged) and leaves the cleanup store untouched. -/
theorem c3_authorization_gate (tr : Transport) (targetUserId userId : Int)
    (st : TState) (digest text : List Char)
    (channelMessages : List (List Char × List Char))
    (summaryMessage : Option (List Char)) (store : Store)
    (hne : userId ≠ targetUserId) :
    sendDigest tr targetUserId st digest (some userId) = (false, st) ∧
      sendChannelMessages tr targetUserId st channelMessages (some userId)
        = (false, st) ∧
      sendChannelMessagesWithTracking tr targetUserId st channelMessages
        summaryMessage (some userId) store = (false, st, store) ∧
      sendMessage tr targetUserId st text (some userId) = (false, st) ∧
      cleanupOldDigests tr targetUserId st (some userId) store
        = (false, st, store) := by
  refine ⟨?_, ?_, ?_, ?_, ?_⟩ <;>
    simp [sendDigest, sendChannelMessages, sendChannelMessagesWithTracking,
      sendMessage, cleanupOldDigests, hne]

/-- Witness for `c3_authorization_gate` at concrete inputs. -/
theorem c3_authorization_gate_witness :
    (2 : Int) ≠ 1 ∧
      (sendDigest (fun _ => TOutcome.ok 9) 1 ⟨0, []⟩ "d".data (some 2)
          = (false, ⟨0, []⟩) ∧
        sendChannelMessages (fun _ => TOutcome.ok 9) 1 ⟨0, []⟩
          [("A".data, "a".data)] (some 2) = (false, ⟨0, []⟩) ∧
        sendChannelMessagesWithTracking (fun _ => TOutcome.ok 9) 1 ⟨0, []⟩
          [("A".data, "a".data)] none (some 2) Store.missing
          = (false, ⟨0, []⟩, Store.missing) ∧
        sendMessage (fun _ => TOutcome.ok 9) 1 ⟨0, []⟩ "t".data (some 2)
          = (false, ⟨0, []⟩) ∧
        cleanupOldDigests (fun _ => TOutcome.ok 9) 1 ⟨0, []⟩ (some 2)
          Store.missing = (false, ⟨0, []⟩, Store.missing)) :=
  ⟨by decide, c3_authorization_gate (fun _ => TOutcome.ok 9) 1 2 ⟨0, []⟩
    "d".data "t".data [("A".data, "a".data)] none Store.missing (by decide)⟩

/-! ### C5: markup fallback -/

/-- C5: for one block delivery (`_send_message_part`, and
`_send_message_with_tracking` alike): the first transport call renders
Markdown; exactly when that call fails with an error containing the
markup-parse pattern, the same text is retried exactly once with markup
disabled (two calls total, an error of the retry propagating); any other
transport error propagates with no retry (one call total). -/
theorem c5_markdown_fallback (tr : Transport) (st : TState) (userId : Int)
    (text : List Char) :
    (∀ mid, tr st.n = TOutcome.ok mid →
        sendMessagePart tr st userId text
            = (Except.ok (),
                ⟨st.n + 1, st.calls ++ [TCall.send userId text true]⟩) ∧
          sendMessageWithTracking tr st userId text
            = (Except.ok mid,
                ⟨st.n + 1, st.calls ++ [TCall.send userId text true]⟩)) ∧
      (∀ e, tr st.n = TOutcome.err e → pyContains e parseErrPat = true →
        (sendMessagePart tr st userId text).2
            = ⟨st.n + 2, st.calls ++ [TCall.send userId text true,
                TCall.send userId text false]⟩ ∧
          (sendMessageWithTracking tr st userId text).2
            = ⟨st.n + 2, st.calls ++ [TCall.send userId text true,
                TCall.send userId text false]⟩ ∧
          (∀ mid2, tr (st.n + 1) = TOutcome.ok mid2 →
            (sendMessagePart tr st userId text).1 = Except.ok () ∧
              (sendMessageWithTracking tr st userId text).1
                = Except.ok mid2) ∧
          (∀ e2, tr (st.n + 1) = TOutcome.err e2 →
            (sendMessagePart tr st userId text).1 = Except.error e2 ∧
              (sendMessageWithTracking tr st userId text).1
                = Except.error e2)) ∧
      (∀ e, tr st.n = TOutcome.err e → pyContains e parseErrPat = false →
        sendMessagePart tr st userId text
            = (Except.error e,
                ⟨st.n + 1, st.calls ++ [TCall.send userId text true]⟩) ∧
          sendMessageWithTracking tr st userId text
            = (Except.error e,
                ⟨st.n + 1, st.calls ++ [TCall.send userId text true]⟩)) := by
  refine ⟨?_, ?_, ?_⟩
  · intro mid h
    constructor <;> simp [sendMessagePart, sendMessageWithTracking, tSend, h]
  · intro e h hpat
    refine ⟨?_, ?_, ?_, ?_⟩
    · rcases h2 : tr (st.n + 1) <;>
        simp [sendMessagePart, tSend, h, hpat, h2]
    · rcases h2 : tr (st.n + 1) <;>
        simp [sendMessageWithTracking, tSend, h, hpat, h2]
    · intro mid2 h2
      constructor
      · simp [sendMessagePart, tSend, h, hpat, h2]
      · simp [sendMessageWithTracking, tSend, h, hpat, h2]
    · intro e2 h2
      constructor
      · simp [sendMessagePart, tSend, h, hpat, h2]
      · simp [sendMessageWithTracking, tSend, h, hpat, h2]
  · intro e h hpat
    constructor <;>
      simp [sendMessagePart, sendMessageWithTracking, tSend, h, hpat]

/-- Witness for `c5_markdown_fallback`: a markup-parse failure followed by
a successful plain-text retry produces exactly the two calls, Markdown
then plain. -/
theorem c5_markdown_fallback_witness :
    ((fun n => if n = 0 then TOutcome.err parseErrPat else TOutcome.ok 7) :
        Transport) (TState.mk 0 []).n = TOutcome.err parseErrPat ∧
      pyContains parseErrPat parseErrPat = true ∧
      (sendMessagePart
          (fun n => if n = 0 then TOutcome.err parseErrPat else TOutcome.ok 7)
          ⟨0, []⟩ 1 "hi".data).2
        = ⟨(TState.mk 0 []).n + 2, (TState.mk 0 []).calls ++
            [TCall.send 1 "hi".data true, TCall.send 1 "hi".data false]⟩ :=
  ⟨by decide, by decide,
    ((c5_markdown_fallback
        (fun n => if n = 0 then TOutcome.err parseErrPat else TOutcome.ok 7)
        ⟨0, []⟩ 1 "hi".data).2.1 parseErrPat (by decide) (by decide)).1⟩

/-! ### C6: cleanup of old digests -/

/-- Characterization of the deletion loop: one delete call per identifier
in order (no early abort), the failure count is zero exactly when every
outcome was counted as removed, and the removed count is positive exactly
when some outcome was counted as removed. -/
theorem cleanupLoop_spec (tr : Transport) (userId : Int) :
    ∀ (ids : List Int) (n : Nat) (calls : List TCall),
      (cleanupLoop tr userId ⟨n, calls⟩ ids).2.2.calls
          = calls ++ ids.map (fun mid => TCall.del userId mid) ∧
        (cleanupLoop tr userId ⟨n, calls⟩ ids).2.2.n = n + ids.length ∧
        ((cleanupLoop tr userId ⟨n, calls⟩ ids).2.1 = 0 ↔
          ∀ i < ids.length, deleteCounted (tr (n + i)) = true) ∧
        (0 < (cleanupLoop tr userId ⟨n, calls⟩ ids).1 ↔
          ∃ i < ids.length, deleteCounted (tr (n + i)) = true) := by
  intro ids
  induction ids with
  | nil =>
    intro n calls
    refine ⟨by simp [cleanupLoop], by simp [cleanupLoop], ?_, ?_⟩
    · simp [cleanupLoop]
    · simp [cleanupLoop]
  | cons mid rest ih =>
    intro n calls
    have ihs := ih (n + 1) (calls ++ [TCall.del userId mid])
    by_cases hc : deleteCounted (tr n) = true
    · have he : cleanupLoop tr userId ⟨n, calls⟩ (mid :: rest)
          = ((cleanupLoop tr userId
                ⟨n + 1, calls ++ [TCall.del userId mid]⟩ rest).1 + 1,
              (cleanupLoop tr userId
                ⟨n + 1, calls ++ [TCall.del userId mid]⟩ rest).2.1,
              (cleanupLoop tr userId
                ⟨n + 1, calls ++ [TCall.del userId mid]⟩ rest).2.2) := by
        simp only [cleanupLoop, tDelete]
        rw [if_pos hc]
      rw [he]
      refine ⟨?_, ?_, ?_, ?_⟩
      · rw [ihs.1]
        simp
      · rw [ihs.2.1]
        simp only [List.length_cons]
        omega
      · rw [ihs.2.2.1]
        constructor
        · intro hall i hi
          cases i with
          | zero => simpa using hc
          | succ i =>
            have hlt : i < rest.length := by
              simpa [List.length_cons] using hi
            have hstep := hall i hlt
            have harith : n + 1 + i = n + (i + 1) := by omega
            rw [harith] at hstep
            exact hstep
        · intro hall i hi
          have hstep := hall (i + 1) (by simp only [List.length_cons]; omega)
          have harith : n + 1 + i = n + (i + 1) := by omega
          rw [harith]
          exact hstep
      · constructor
        · intro _
          exact ⟨0, by simp, by simpa using hc⟩
        · intro _
          show 0 < (cleanupLoop tr userId
            ⟨n + 1, calls ++ [TCall.del userId mid]⟩ rest).1 + 1
          omega
    · have he : cleanupLoop tr userId ⟨n, calls⟩ (mid :: rest)
          = ((cleanupLoop tr userId
                ⟨n + 1, calls ++ [TCall.del userId mid]⟩ rest).1,
              (cleanupLoop tr userId
                ⟨n + 1, calls ++ [TCall.del userId mid]⟩ rest).2.1 + 1,
              (cleanupLoop tr userId
                ⟨n + 1, calls ++ [TCall.del userId mid]⟩ rest).2.2) := by
        simp only [cleanupLoop, tDelete]
        rw [if_neg hc]
      rw [he]
      refine ⟨?_, ?_, ?_, ?_⟩
      · rw [ihs.1]
        simp
      · rw [ihs.2.1]
        simp only [List.length_cons]
        omega
      · constructor
        · intro hz
          exfalso
          simp at hz
        · intro hall
          exfalso
          exact hc (by simpa using hall 0 (by simp))
      · rw [ihs.2.2.2]
        constructor
        · rintro ⟨i, hi, hct⟩
          refine ⟨i + 1, by simp only [List.length_cons]; omega, ?_⟩
          have harith : n + 1 + i = n + (i + 1) := by omega
          rw [harith] at hct
          exact hct
        · rintro ⟨i, hi, hct⟩
          cases i with
          | zero => exact absurd (by simpa using hct) hc
          | succ i =>
            refine ⟨i, by simpa [List.length_cons] using hi, ?_⟩
            have harith : n + 1 + i = n + (i + 1) := by omega
            rw [harith]
            exact hct

/-- C6: `cleanup_old_digests` issues exactly one delete call per stored
identifier in order (a per-message failure never aborts the rest), counts
a "message to delete not found" response as a successful deletion (via
`deleteCounted`), leaves the record empty afterwards (a subsequent `get`
returns the empty list), and reports success exactly when the stored list
was empty or at least one deletion was counted. -/
theorem c6_cleanup (tr : Transport) (targetUserId : Int) (store : Store)
    (hwf : StoreWF store) :
    (cleanupOldDigests tr targetUserId ⟨0, []⟩ none store).2.1.calls
        = (getDigestMessageIds targetUserId store).map
            (fun mid => TCall.del targetUserId mid) ∧
      getDigestMessageIds targetUserId
        (cleanupOldDigests tr targetUserId ⟨0, []⟩ none store).2.2 = [] ∧
      ((cleanupOldDigests tr targetUserId ⟨0, []⟩ none store).1 = true ↔
        getDigestMessageIds targetUserId store = [] ∨
          ∃ i < (getDigestMessageIds targetUserId store).length,
            deleteCounted (tr i) = true) := by
  have hgate : cleanupOldDigests tr targetUserId ⟨0, []⟩ none store
      = (if (getDigestMessageIds targetUserId store).isEmpty
          then (true, ⟨0, []⟩, store)
          else
            ((if (cleanupLoop tr targetUserId ⟨0, []⟩
                    (getDigestMessageIds targetUserId store)).2.1 = 0
                then true
                else decide ((cleanupLoop tr targetUserId ⟨0, []⟩
                    (getDigestMessageIds targetUserId store)).1 > 0)),
              (cleanupLoop tr targetUserId ⟨0, []⟩
                (getDigestMessageIds targetUserId store)).2.2,
              clearDigestMessageIds targetUserId store)) := by
    show (if (none : Option Int).getD targetUserId ≠ targetUserId then _
        else _) = _
    rw [if_neg (by simp)]
    rfl
  by_cases hids : (getDigestMessageIds targetUserId store).isEmpty
  · have hids' : getDigestMessageIds targetUserId store = [] := by
      simpa [List.isEmpty_iff] using hids
    rw [hgate, if_pos hids]
    simp [hids']
  · have hspec := cleanupLoop_spec tr targetUserId
      (getDigestMessageIds targetUserId store) 0 []
    have hne : getDigestMessageIds targetUserId store ≠ [] := by
      simpa [List.isEmpty_iff] using hids
    rw [hgate, if_neg hids]
    refine ⟨?_, ?_, ?_⟩
    · simpa using hspec.1
    · cases store with
      | missing => rfl
      | corrupt => rfl
      | data d =>
        simp only [clearDigestMessageIds, getDigestMessageIds]
        rw [lookupEntry_removeEntry targetUserId d hwf]
    · by_cases hf : (cleanupLoop tr targetUserId ⟨0, []⟩
          (getDigestMessageIds targetUserId store)).2.1 = 0
      · rw [if_pos hf]
        constructor
        · intro _
          right
          have hlen : 0 < (getDigestMessageIds targetUserId store).length :=
            List.length_pos.mpr hne
          have hall := hspec.2.2.1.mp hf
          exact ⟨0, hlen, by simpa using hall 0 hlen⟩
        · intro _
          rfl
      · rw [if_neg hf]
        constructor
        · intro hpos
          right
          have := hspec.2.2.2.mp (by simpa using hpos)
          simpa using this
        · intro hor
          rcases hor with hnil | hex
          · exact absurd hnil hne
          · simp only [decide_eq_true_eq]
            apply hspec.2.2.2.mpr
            simpa using hex

/-- Witness for `c6_cleanup`: three stored ids where the second delete
reports "message to delete not found" and the others fail outright. -/
theorem c6_cleanup_witness :
    StoreWF (Store.data [(5, [10, 11, 12])]) ∧
      (cleanupOldDigests
          (fun n => if n = 1
            then TOutcome.err "Bad Request: Message to delete not found".data
            else TOutcome.err "Internal Server Error".data)
          5 ⟨0, []⟩ none (Store.data [(5, [10, 11, 12])])).1 = true ∧
      (cleanupOldDigests
          (fun n => if n = 1
            then TOutcome.err "Bad Request: Message to delete not found".data
            else TOutcome.err "Internal Server Error".data)
          5 ⟨0, []⟩ none (Store.data [(5, [10, 11, 12])])).2.1.calls
        = [TCall.del 5 10, TCall.del 5 11, TCall.del 5 12] :=
  ⟨by decide,
    ((c6_cleanup
        (fun n => if n = 1
          then TOutcome.err "Bad Request: Message to delete not found".data
          else TOutcome.err "Internal Server Error".data)
        5 (Store.data [(5, [10, 11, 12])]) (by decide)).2.2).mpr
      (Or.inr ⟨1, by decide, by decide⟩),
    by
      rw [(c6_cleanup
          (fun n => if n = 1
            then TOutcome.err "Bad Request: Message to delete not found".data
            else TOutcome.err "Internal Server Error".data)
          5 (Store.data [(5, [10, 11, 12])]) (by decide)).1]
      decide⟩

/-! ### C2: partial-failure reporting (code bug) -/

/-- C2, failing evaluation: with two channel blocks where the transport
fails the first send and delivers the second, `send_channel_messages`
correctly reports `False`, but `send_channel_messages_with_tracking`
reports `True` on the very same partial outcome — its
`_log_and_return_result` returns `success_count > 0` — contradicting its
own docstring ("True if all messages sent successfully, False otherwise")
and the partial-failure policy of the spec. -/
theorem c2_partial_failure_bug :
    (sendChannelMessages
        (fun n => if n = 0
          then TOutcome.err "Bad Request: chat not found".data
          else TOutcome.ok 101)
        5 ⟨0, []⟩ [("A".data, "a".data), ("B".data, "b".data)]
        (some 5)).1 = false ∧
      (sendChannelMessagesWithTracking
        (fun n => if n = 0
          then TOutcome.err "Bad Request: chat not found".data
          else TOutcome.ok 101)
        5 ⟨0, []⟩ [("A".data, "a".data), ("B".data, "b".data)] none
        (some 5) Store.missing).1 = true := by
  constructor
  · decide
  · decide

/-! ### C4: zero-message runs -/

/-- C4, counterexample: with one configured channel and zero collected
messages, `generate_and_send_digest` still renders a digest (here just the
header) and delivers it — the transport is called and the run reports
`True`, not `False`: the zero-message check exists only in
`generate_and_send_channel_digests`. -/
theorem c4_zero_messages_counterexample :
    (generateAndSendDigest (fun _ => LLMResult.fail "e".data)
        (fun _ => TOutcome.ok 1) 5 true false "x".data "t".data 24 none
        [("A".data, ([] : List Nat))]).1 = true ∧
      (generateAndSendDigest (fun _ => LLMResult.fail "e".data)
        (fun _ => TOutcome.ok 1) 5 true false "x".data "t".data 24 none
        [("A".data, ([] : List Nat))]).2.calls ≠ [] := by
  constructor
  · decide
  · decide

/-- C4 (amended): `generate_and_send_channel_digests` treats a run that
collects zero total messages as a no-op: nothing is delivered (zero
transport calls) and the run reports `False`.  (`generate_and_send_digest`
performs no such check and simply sends whatever the formatter renders, as
the counterexample shows.) -/
theorem c4_zero_messages_noop {Msg : Type} (llm : LLM) (tr : Transport)
    (targetUserId : Int) (useEmojis : Bool) (hours : Nat)
    (userId : Option Int)
    (messagesByChannel : List (List Char × List Msg))
    (hzero : (messagesByChannel.map (fun p => p.2.length)).sum = 0) :
    generateAndSendChannelDigests llm tr targetUserId useEmojis hours userId
      messagesByChannel = (false, ⟨0, []⟩) := by
  simp [generateAndSendChannelDigests, hzero]

/-- Witness for `c4_zero_messages_noop` at a concrete run. -/
theorem c4_zero_messages_noop_witness :
    (([("A".data, ([] : List Nat)), ("B".data, [])].map
        (fun p => p.2.length)).sum = 0) ∧
      generateAndSendChannelDigests (fun _ => LLMResult.fail "e".data)
        (fun _ => TOutcome.ok 1) 5 true 24 none
        [("A".data, ([] : List Nat)), ("B".data, [])] = (false, ⟨0, []⟩) :=
  ⟨by decide,
    c4_zero_messages_noop (fun _ => LLMResult.fail "e".data)
      (fun _ => TOutcome.ok 1) 5 true 24 none
      [("A".data, ([] : List Nat)), ("B".data, [])] (by decide)⟩

/-! ### C8 and C10: channel exclusion -/

/-- Mapping a pair list with a first-component-preserving function
preserves the key list. -/
theorem map_fst_map_pair {A B C : Type} (f : A × B → C) (l : List (A × B)) :
    (l.map (fun p => (p.1, f p))).map Prod.fst = l.map Prod.fst := by
  induction l with
  | nil => rfl
  | cons p rest ih => simp [ih]

/-- C8: a channel the Collector maps to an empty message list is absent
from `summarize_all`'s summary mapping and from the per-channel delivery
list built by `generate_and_send_channel_digests`; it contributes nothing
to delivery. -/
theorem c8_empty_channel_excluded {Msg : Type} (llm : LLM) (useEmojis : Bool)
    (hours : Nat) (messagesByChannel : List (List Char × List Msg))
    (name : List Char)
    (hnd : (messagesByChannel.map Prod.fst).Nodup)
    (hmem : (name, ([] : List Msg)) ∈ messagesByChannel) :
    name ∉ (summarizeAll llm messagesByChannel).1.map Prod.fst ∧
      name ∉ (coreChannelMessages useEmojis
        (summarizeAll llm messagesByChannel).1 messagesByChannel
        hours).map Prod.fst := by
  have hkey : ∀ v, (name, v) ∈ messagesByChannel → v = ([] : List Msg) :=
    fun v hv => keys_nodup_unique hnd hv hmem
  have h1 : name ∉ (messagesByChannel.filter
      (fun p => ¬p.2.isEmpty)).map Prod.fst := by
    intro hin
    obtain ⟨p, hp, hfst⟩ := List.mem_map.mp hin
    obtain ⟨pn, pv⟩ := p
    have hpn : pn = name := hfst
    subst hpn
    have hpm := List.mem_filter.mp hp
    have hv := hkey pv hpm.1
    rw [hv] at hpm
    simp at hpm
  have hsumm : name ∉ (summarizeAll llm messagesByChannel).1.map Prod.fst := by
    by_cases hE : (messagesByChannel.filter
        (fun p => ¬p.2.isEmpty)).isEmpty
    · have he : (summarizeAll llm messagesByChannel).1 = [] := by
        unfold summarizeAll
        rw [if_pos hE]
      rw [he]
      simp
    · have he : (summarizeAll llm messagesByChannel).1
          = summarizePerChannel llm
              (messagesByChannel.filter (fun p => ¬p.2.isEmpty)) := by
        unfold summarizeAll
        rw [if_neg hE]
      rw [he]
      unfold summarizePerChannel
      rw [map_fst_map_pair (fun p => summarizeChannelEntry llm p.1)]
      exact h1
  refine ⟨hsumm, ?_⟩
  intro hin
  unfold coreChannelMessages at hin
  rw [map_fst_map_pair] at hin
  apply hsumm
  obtain ⟨p, hp, hfst⟩ := List.mem_map.mp hin
  exact List.mem_map.mpr ⟨p, (List.mem_filter.mp hp).1, hfst⟩

/-- Witness for `c8_empty_channel_excluded` at a concrete mapping. -/
theorem c8_empty_channel_excluded_witness :
    (([("Tech".data, [(1 : Nat)]), ("Empty".data, [])].map
        Prod.fst).Nodup) ∧
      ("Empty".data, ([] : List Nat))
        ∈ [("Tech".data, [(1 : Nat)]), ("Empty".data, [])] ∧
      ("Empty".data ∉ (summarizeAll (fun _ => LLMResult.ok "S".data)
          [("Tech".data, [(1 : Nat)]), ("Empty".data, [])]).1.map
            Prod.fst ∧
        "Empty".data ∉ (coreChannelMessages true
          (summarizeAll (fun _ => LLMResult.ok "S".data)
            [("Tech".data, [(1 : Nat)]), ("Empty".data, [])]).1
          [("Tech".data, [(1 : Nat)]), ("Empty".data, [])] 24).map
            Prod.fst) :=
  ⟨by decide, by decide,
    c8_empty_channel_excluded (fun _ => LLMResult.ok "S".data) true 24
      [("Tech".data, [(1 : Nat)]), ("Empty".data, [])] "Empty".data
      (by decide) (by decide)⟩

/-- C10: a channel whose summary contains "ошибка" in any letter case —
including a successfully generated summary that merely mentions the word —
is omitted from the channel sections of the combined digest and from the
per-channel delivery list; exclusion is by substring containment on the
lowercased summary, not by equality with the failure marker. -/
theorem c10_error_marker_exclusion {Msg : Type} (useEmojis : Bool)
    (hours : Nat) (channelSummaries : List (List Char × List Char))
    (messagesByChannel : List (List Char × List Msg))
    (name summary : List Char)
    (hnd : (channelSummaries.map Prod.fst).Nodup)
    (hmem : (name, summary) ∈ channelSummaries)
    (hbad : pyContains (pyLower summary) digestMarker = true) :
    name ∉ (digestChannelPairs channelSummaries).map Prod.fst ∧
      name ∉ (coreChannelMessages useEmojis channelSummaries
        messagesByChannel hours).map Prod.fst := by
  have hkey : ∀ v, (name, v) ∈ channelSummaries → v = summary :=
    fun v hv => keys_nodup_unique hnd hv hmem
  have hfil : name ∉ (channelSummaries.filter
      (fun p => ¬badSummary p.2)).map Prod.fst := by
    intro hin
    obtain ⟨p, hp, hfst⟩ := List.mem_map.mp hin
    obtain ⟨pn, pv⟩ := p
    have hpn : pn = name := hfst
    subst hpn
    have hpm := List.mem_filter.mp hp
    have hv := hkey pv hpm.1
    rw [hv] at hpm
    have hb : badSummary summary = true := by
      simp [badSummary, hbad]
    simp [hb] at hpm
  constructor
  · intro hin
    apply hfil
    simpa [digestChannelPairs] using hin
  · intro hin
    unfold coreChannelMessages at hin
    rw [map_fst_map_pair] at hin
    exact hfil hin

/-- Witness for `c10_error_marker_exclusion`: a healthy summary merely
mentioning the word (capitalized) is excluded. -/
theorem c10_error_marker_exclusion_witness :
    (([("Tech".data, "Система стабильна, слово Ошибка лишь упомянуто".data)].map
        Prod.fst).Nodup) ∧
      ("Tech".data, "Система стабильна, слово Ошибка лишь упомянуто".data)
        ∈ [("Tech".data,
            "Система стабильна, слово Ошибка лишь упомянуто".data)] ∧
      pyContains
        (pyLower "Система стабильна, слово Ошибка лишь упомянуто".data)
        digestMarker = true ∧
      ("Tech".data ∉ (digestChannelPairs
          [("Tech".data,
            "Система стабильна, слово Ошибка лишь упомянуто".data)]).map
            Prod.fst ∧
        "Tech".data ∉ (coreChannelMessages true
          [("Tech".data,
            "Система стабильна, слово Ошибка лишь упомянуто".data)]
          ([] : List (List Char × List Nat)) 24).map Prod.fst) :=
  ⟨by decide, by decide, by decide,
    c10_error_marker_exclusion true 24
      [("Tech".data, "Система стабильна, слово Ошибка лишь упомянуто".data)]
      ([] : List (List Char × List Nat)) "Tech".data
      "Система стабильна, слово Ошибка лишь упомянуто".data
      (by decide) (by decide) (by decide)⟩

/-! ### C9: rate-limit retry in the Collector -/

theorem fetchMessagesAux_length {Msg : Type}
    (oracle : Nat → Nat → FetchResult Msg) :
    ∀ (channels : List (List Char)) (i : Nat),
      (fetchMessagesAux oracle i channels).1.length = channels.length := by
  intro channels
  induction channels with
  | nil => intro i; rfl
  | cons name rest ih =>
    intro i
    simp [fetchMessagesAux, ih]

theorem fetchMessagesAux_get {Msg : Type}
    (oracle : Nat → Nat → FetchResult Msg) :
    ∀ (channels : List (List Char)) (i k : Nat),
      (fetchMessagesAux oracle i channels).1[k]?
        = (channels[k]?).map
            (fun name => (name, (processChannelFetch (oracle (i + k))).1)) := by
  intro channels
  induction channels with
  | nil =>
    intro i k
    simp [fetchMessagesAux]
  | cons name rest ih =>
    intro i k
    cases k with
    | zero => simp [fetchMessagesAux]
    | succ k =>
      have harith : i + (k + 1) = i + 1 + k := by omega
      simp [fetchMessagesAux, harith, ih (i + 1) k]

/-- C9: when the first fetch of channel `k` raises the rate-limit signal
carrying `seconds`, the collector sleeps exactly `[seconds]` for that
channel, makes exactly two fetch attempts, records the messages of the retry
on success and the empty list on any retry failure, and still produces an
entry for every configured channel in order. -/
theorem c9_rate_limit_retry {Msg : Type}
    (oracle : Nat → Nat → FetchResult Msg) (channels : List (List Char))
    (k seconds : Nat)
    (hflood : oracle k 0 = FetchResult.floodWait seconds) :
    (processChannelFetch (oracle k)).2.1 = [seconds] ∧
      (processChannelFetch (oracle k)).2.2 = 2 ∧
      (processChannelFetch (oracle k)).1
        = (match oracle k 1 with
            | FetchResult.ok msgs => msgs
            | _ => []) ∧
      (fetchMessages oracle channels).1.length = channels.length ∧
      (fetchMessages oracle channels).1[k]?
        = (channels[k]?).map
            (fun name => (name, (processChannelFetch (oracle k)).1)) := by
  refine ⟨?_, ?_, ?_, ?_, ?_⟩
  · rcases h1 : oracle k 1 <;> simp [processChannelFetch, hflood, h1]
  · rcases h1 : oracle k 1 <;> simp [processChannelFetch, hflood, h1]
  · rcases h1 : oracle k 1 <;> simp [processChannelFetch, hflood, h1]
  · exact fetchMessagesAux_length oracle channels 0
  · have hg := fetchMessagesAux_get oracle channels 0 k
    simpa [fetchMessages] using hg

/-- Witness for `c9_rate_limit_retry`: channel 0 is rate-limited for 30
seconds, its retry succeeds. -/
theorem c9_rate_limit_retry_witness :
    ((fun i a => if i = 0 ∧ a = 0 then FetchResult.floodWait 30
        else if i = 0 ∧ a = 1 then FetchResult.ok [(5 : Nat)]
        else FetchResult.ok []) : Nat → Nat → FetchResult Nat) 0 0
        = FetchResult.floodWait 30 ∧
      ((processChannelFetch
          (((fun i a => if i = 0 ∧ a = 0 then FetchResult.floodWait 30
            else if i = 0 ∧ a = 1 then FetchResult.ok [(5 : Nat)]
            else FetchResult.ok []) : Nat → Nat → FetchResult Nat) 0)).2.1
        = [30] ∧
      (processChannelFetch
          (((fun i a => if i = 0 ∧ a = 0 then FetchResult.floodWait 30
            else if i = 0 ∧ a = 1 then FetchResult.ok [(5 : Nat)]
            else FetchResult.ok []) : Nat → Nat → FetchResult Nat) 0)).1
        = [5]) :=
  ⟨by decide,
    (c9_rate_limit_retry
      ((fun i a => if i = 0 ∧ a = 0 then FetchResult.floodWait 30
        else if i = 0 ∧ a = 1 then FetchResult.ok [(5 : Nat)]
        else FetchResult.ok []) : Nat → Nat → FetchResult Nat)
      ["A".data, "B".data] 0 30 (by decide)).1,
    by decide⟩

end Telebrief
